import Mathlib

/-!
Verification of the downstream query fan-out dispatcher
(pkg/querier/queryrange/downstreamer.go).

The development shallowly embeds the Go code:

* Request translation (ParamsToLokiRequest, lines 31-53) and the
  Downstreamer factory (lines 63-83) become pure Lean functions.
* The collector side of instance.For (lines 155-167) becomes a pure
  function of the nondeterministic delivery order of worker responses.
* The supervisor / worker / token-pool interplay of instance.For
  (lines 121-153) becomes a labelled small-step transition system in
  which each transition mirrors one enabled select branch.
* Response translation (ResponseToResult, sampleStreamToMatrix,
  sampleStreamToVector, lines 171-251) becomes a pure function; the
  unchecked Samples[0] access of sampleStreamToVector is modelled by an
  Option layer in which the value none stands for a runtime panic.

Go machine values that the code only moves around verbatim (float64
sample values, statistics, headers, log-stream entries, the downstream
handler) are treated as opaque type parameters V, S, H, T, A: the code
never inspects them, so nothing is lost.
-/

/-! ## Request translation (ParamsToLokiRequest, lines 31-53) -/

/-- Direction of log iteration (logproto.Direction). -/
inductive Direction where
  | forward
  | backward
deriving DecidableEq, Repr

/-- Modelled from the spec: a shard descriptor with its stable string
encoding (logql.Shards and Shards.Encode are declared outside src/; the
spec only requires an ordered set of descriptors with a stable, lossless
string encoding). -/
structure Shard where
  enc : String
deriving DecidableEq, Repr

/-- Encoding of a shard set: the list of per-shard encodings, in order
(models logql.Shards.Encode, declared outside src/). -/
def shardsEncode (shards : List Shard) : List String :=
  shards.map Shard.enc

/-- Logical query parameters (the logql.Params interface, declared
outside src/). Times are integer nanosecond timestamps, step and
interval are integer nanosecond durations (Go time.Time / time.Duration
as read by the accessors used in ParamsToLokiRequest).

The field instant is modelled from the spec: whether the parameters
describe an instant evaluation (logql.GetRangeType, declared outside
src/, is the branch condition at line 32). -/
structure Params where
  query : String
  start : Int
  endTime : Int
  step : Int
  interval : Int
  direction : Direction
  limit : Nat
  instant : Bool
deriving DecidableEq, Repr

/-- Go Duration.Milliseconds(): integer division of nanoseconds by 10^6,
truncating toward zero. -/
def durationMilliseconds (d : Int) : Int :=
  Int.tdiv d 1000000

/-- The range request variant (LokiRequest, declared outside src/;
fields are exactly those written at lines 42-52). -/
structure LokiRequest where
  query : String
  limit : Nat
  step : Int
  interval : Int
  startTs : Int
  endTs : Int
  direction : Direction
  path : String
  shards : List String
deriving DecidableEq, Repr

/-- The instant request variant (LokiInstantRequest, declared outside
src/; fields are exactly those written at lines 33-40). -/
structure LokiInstantRequest where
  query : String
  limit : Nat
  timeTs : Int
  direction : Direction
  path : String
  shards : List String
deriving DecidableEq, Repr

/-- The queryrangebase.Request interface value produced by
ParamsToLokiRequest: one of the two concrete variants. -/
inductive Request where
  | instant (r : LokiInstantRequest)
  | range (r : LokiRequest)
deriving DecidableEq, Repr

/-- ParamsToLokiRequest (lines 31-53): instant variant when the
parameters describe an instant evaluation, range variant otherwise. -/
def ParamsToLokiRequest (params : Params) (shards : List Shard) : Request :=
  if params.instant then
    .instant
      { query := params.query
        limit := params.limit
        timeTs := params.start
        direction := params.direction
        path := "/loki/api/v1/query"
        shards := shardsEncode shards }
  else
    .range
      { query := params.query
        limit := params.limit
        step := durationMilliseconds params.step
        interval := durationMilliseconds params.interval
        startTs := params.start
        endTs := params.endTime
        direction := params.direction
        path := "/loki/api/v1/query_range"
        shards := shardsEncode shards }

/-! ## Dispatcher factory (DownstreamHandler.Downstreamer, lines 63-83) -/

/-- The fixed default concurrency bound (line 23). -/
def DefaultDownstreamConcurrency : Int := 128

/-- DownstreamHandler (lines 26-29). The Limits interface is declared
outside src/; the only method used is MaxQueryParallelism(ctx, user),
modelled as a function from the tenant identifier to an integer. The
downstream handler next is opaque (type parameter A). -/
structure DownstreamHandler (A : Type) where
  maxQueryParallelism : String → Int
  next : A

/-- The per-query dispatcher instance (struct instance, lines 86-90;
the Go name instance is a Lean keyword). The token pool
locks = make(chan struct\x7b\x7d, p) pre-filled by the loop at lines
75-77 is modelled by its capacity and its list of pre-filled tokens. -/
structure Instance (A : Type) where
  parallelism : Int
  locksCapacity : Int
  locks : List Unit
  handler : A

/-- DownstreamHandler.Downstreamer (lines 63-83). Tenant resolution
(tenant.TenantID(ctx), declared outside src/) is modelled by its
result, an Except value. -/
def DownstreamHandler.Downstreamer (h : DownstreamHandler A)
    (tenantID : Except String String) : Instance A :=
  let p : Int := DefaultDownstreamConcurrency
  let p : Int :=
    match tenantID with
    | .ok user => if h.maxQueryParallelism user > 0 then h.maxQueryParallelism user else p
    | .error _ => p
  { parallelism := p
    locksCapacity := p
    locks := List.replicate p.toNat ()
    handler := h.next }

/-! ## The bounded dispatcher, collector side (instance.For, lines 110-168)

Each worker i computes fn(queries[i]) and delivers the tagged response
(i, res, err) on the channel ch; fn is pure, so a run of For is fully
determined by the order in which the collector receives responses. The
function For below is the collector loop of lines 155-167 applied to a
delivery order: results is preallocated with make (zero values), each
received response is written at its tagged index, and the first received
error aborts with nil results. A successful run without caller
cancellation delivers every index exactly once, so the delivery order is
then a permutation of the index range; on an error, the indices
delivered after the failing one are never read by the collector, which
the recursion reproduces by returning at the first error. -/

/-- Collector loop of instance.For (lines 156-166), processing the
delivered responses in order: resp.err aborts with that error (line
162), otherwise results[resp.i] = resp.res (line 164). -/
def forCollect {Q R E : Type} [Inhabited Q] (queries : List Q)
    (fn : Q → Except E R) : List Nat → List R → Except E (List R)
  | [], results => .ok results
  | i :: rest, results =>
    match fn (queries.getD i default) with
    | .error e => .error e
    | .ok r => forCollect queries fn rest (results.set i r)

/-- instance.For (lines 110-168) as a function of the delivery order:
results := make([]Result, len(queries)) (line 155, zero values modelled
by default), then the collector loop. -/
def For {Q R E : Type} [Inhabited Q] [Inhabited R] (queries : List Q)
    (fn : Q → Except E R) (order : List Nat) : Except E (List R) :=
  forCollect queries fn order (List.replicate queries.length default)

/-! ## The bounded dispatcher, concurrency side (lines 121-153)

A labelled transition system over the supervisor goroutine (lines
126-153), the worker goroutines (lines 132-150) and the token pool
in.locks. The state tracks the supervisor index, the number of tokens
in the pool, the number of workers that hold a token, and whether the
context derived at line 121 is cancelled.

Each constructor of ForStep is one enabled select branch of the code:

* spawn: the supervisor select (lines 128-151) takes case <-in.locks,
  enabled when a token is available; it spawns a worker for index next
  and advances. Go select chooses among ready branches without
  preference, so this branch stays enabled after cancellation: the
  break at line 130 exits only the select, not the for loop.
* skipIdx: the supervisor select takes case <-ctx.Done(), enabled
  exactly when the context is cancelled; the break exits the select and
  the loop advances past index next without spawning it.
* finish: a running worker completes fn and its deferred release (lines
  134-136) returns its token to the pool. (Delivery of its response is
  the collector model above.)
* cancel: the context becomes cancelled (first collected error, caller
  cancellation, or the deferred cancel at line 122). -/

/-- State of one call to instance.For: supervisor index, tokens in the
pool, workers holding a token, cancellation flag. -/
structure DState where
  next : Nat
  avail : Nat
  running : Nat
  cancelled : Bool
deriving DecidableEq, Repr

/-- One scheduler step of the For machinery for an input of n queries
(see the section comment for the line-by-line reading). -/
inductive ForStep (n : Nat) : DState → DState → Prop where
  | spawn (s : DState) : s.next < n → 0 < s.avail →
      ForStep n s ⟨s.next + 1, s.avail - 1, s.running + 1, s.cancelled⟩
  | skipIdx (s : DState) : s.next < n → s.cancelled = true →
      ForStep n s ⟨s.next + 1, s.avail, s.running, s.cancelled⟩
  | finish (s : DState) : 0 < s.running →
      ForStep n s ⟨s.next, s.avail + 1, s.running - 1, s.cancelled⟩
  | cancel (s : DState) :
      ForStep n s ⟨s.next, s.avail, s.running, true⟩

/-- Initial state of a call to For on an instance with parallelism p:
the pool holds all p tokens (filled at lines 75-77), no worker runs, the
derived context is not yet cancelled. -/
def initState (p : Nat) : DState := ⟨0, p, 0, false⟩

/-- States reachable during a call to For on an instance with
parallelism p, for n queries. -/
def ForReach (n p : Nat) (s : DState) : Prop :=
  Relation.ReflTransGen (ForStep n) (initState p) s

/-! ## Response translation (lines 171-251)

The wire response shapes (LokiResponse, LokiPromResponse and the
Prometheus types they embed) are declared outside src/; their structures
below carry exactly the fields read by ResponseToResult,
sampleStreamToMatrix and sampleStreamToVector, with doc comments noting
what is modelled from the spec. Statistics (S), headers (H), log-stream
entries (T) and float64 sample values (V) are opaque parameters: the
code copies them verbatim and never inspects them. -/

/-- A label pair (logproto.LabelAdapter / labels.Label, declared outside
src/: both are name/value string pairs, and the cast labels.Label(l) at
lines 177 and 199 is field-for-field). -/
structure LabelPair where
  name : String
  value : String
deriving DecidableEq, Repr

/-- A sample of a sample stream (logproto.LegacySample, declared outside
src/): millisecond timestamp and a float64 value, the two fields read at
lines 183-184 and 203-204. -/
structure LegacySample (V : Type) where
  timestampMs : Int
  value : V
deriving DecidableEq, Repr

/-- A sample stream (queryrangebase.SampleStream, declared outside
src/): the Labels and Samples fields iterated at lines 176-186 and
198-205. -/
structure SampleStream (V : Type) where
  labels : List LabelPair
  samples : List (LegacySample V)
deriving DecidableEq, Repr

/-- Modelled from the spec: the payload of a sample-stream response
(queryrangebase.PrometheusData, declared outside src/) — a declared
result type together with the sample streams. -/
structure PrometheusData (V : Type) where
  resultType : String
  result : List (SampleStream V)
deriving DecidableEq, Repr

/-- Modelled from the spec: the inner Prometheus-style response of a
sample-stream response (queryrangebase.PrometheusResponse, declared
outside src/) — error type/message and the data payload, as read at
lines 232-235. -/
structure PrometheusResponse (V : Type) where
  errorType : String
  error : String
  data : PrometheusData V
deriving DecidableEq, Repr

/-- Modelled from the spec: the log-stream response (LokiResponse,
declared outside src/) — error type/message, the list of log streams
(opaque entries T), statistics and headers, as read at lines 214-229. -/
structure LokiResponse (S H T : Type) where
  errorType : String
  error : String
  result : List T
  statistics : S
  headers : H
deriving DecidableEq, Repr

/-- Modelled from the spec: the sample-stream response (LokiPromResponse,
declared outside src/) — the embedded Prometheus response plus
statistics and headers, as read at lines 231-246. -/
structure LokiPromResponse (S H V : Type) where
  response : PrometheusResponse V
  statistics : S
  headers : H
deriving DecidableEq, Repr

/-- A queryrangebase.Response value as inspected by the type switch at
line 213: one of the two recognized variants, or anything else. The
unknown constructor carries the dynamic type name printed by the %T verb
at line 249. -/
inductive Response (S H T V : Type) where
  | lokiResponse (r : LokiResponse S H T)
  | lokiPromResponse (r : LokiPromResponse S H V)
  | unknown (typeName : String)
deriving DecidableEq, Repr

/-- The constant loghttp.ResultTypeVector compared at line 235 (declared
outside src/; per the spec it tags vector-shaped responses). -/
def ResultTypeVector : String := "vector"

/-- A point of a promql series or sample (promql.Point, declared outside
src/): the T and V fields written at lines 182-185 and 202-205. -/
structure PromPoint (V : Type) where
  t : Int
  v : V
deriving DecidableEq, Repr

/-- One vector entry (promql.Sample, declared outside src/): metric
labels and one point, the fields written at lines 196-205. -/
structure PromSample (V : Type) where
  metric : List LabelPair
  point : PromPoint V
deriving DecidableEq, Repr

/-- One matrix series (promql.Series, declared outside src/): metric
labels and the list of points, the fields written at lines 174-186. -/
structure PromSeries (V : Type) where
  metric : List LabelPair
  points : List (PromPoint V)
deriving DecidableEq, Repr

/-- The polymorphic data payload of a Result: log streams, an instant
vector, or a range matrix (the three parser.Value shapes produced at
lines 227, 238 and 244). -/
inductive ResultValue (T V : Type) where
  | streams (xs : List T)
  | vector (xs : List (PromSample V))
  | matrix (xs : List (PromSeries V))
deriving DecidableEq, Repr

/-- The uniform result (logqlmodel.Result, declared outside src/):
statistics, data payload, headers — the three fields written at lines
225-228, 236-240 and 242-246. -/
structure LogqlResult (S H T V : Type) where
  statistics : S
  data : ResultValue T V
  headers : H
deriving DecidableEq, Repr

/-- The cast labels.Label(l) at lines 177 and 199: field-for-field. -/
def labelCast (l : LabelPair) : LabelPair :=
  { name := l.name, value := l.value }

/-- sampleStreamToMatrix (lines 171-191): one series per stream, labels
cast one by one (lines 176-178), points copied in order (lines
180-186). -/
def sampleStreamToMatrix (streams : List (SampleStream V)) : List (PromSeries V) :=
  streams.map fun stream =>
    { metric := stream.labels.map labelCast
      points := stream.samples.map fun sample =>
        { t := sample.timestampMs, v := sample.value } }

/-- sampleStreamToVector (lines 193-210): one sample per stream, labels
cast one by one (lines 197-200), the point taken from Samples[0] (lines
202-205). The access stream.Samples[0] is unchecked: on an empty samples
slice the Go code panics with an out-of-bounds error, modelled here by
the value none, which aborts the whole translation as the panic unwinds
the whole call. -/
def sampleStreamToVector : List (SampleStream V) → Option (List (PromSample V))
  | [] => some []
  | stream :: rest =>
    match stream.samples with
    | [] => none
    | s0 :: _ =>
      match sampleStreamToVector rest with
      | none => none
      | some xs =>
        some ({ metric := stream.labels.map labelCast
                point := { t := s0.timestampMs, v := s0.value } } :: xs)

/-- ResponseToResult (lines 212-251). The outer Option models normal
termination: none is the runtime panic raised inside
sampleStreamToVector, some (.error e) a returned error, some (.ok res) a
returned Result. The copy loop at lines 219-223 appends the log streams
verbatim. -/
def ResponseToResult (resp : Response S H T V) :
    Option (Except String (LogqlResult S H T V)) :=
  match resp with
  | .lokiResponse r =>
    if r.error ≠ "" then
      some (.error (r.errorType ++ ": " ++ r.error))
    else
      some (.ok { statistics := r.statistics
                  data := .streams r.result
                  headers := r.headers })
  | .lokiPromResponse r =>
    if r.response.error ≠ "" then
      some (.error (r.response.errorType ++ ": " ++ r.response.error))
    else if r.response.data.resultType = ResultTypeVector then
      match sampleStreamToVector r.response.data.result with
      | none => none
      | some v =>
        some (.ok { statistics := r.statistics
                    data := .vector v
                    headers := r.headers })
    else
      some (.ok { statistics := r.statistics
                  data := .matrix (sampleStreamToMatrix r.response.data.result)
                  headers := r.headers })
  | .unknown typeName =>
    some (.error ("cannot decode (" ++ typeName ++ ")"))

/-! ## Theorems -/

/-- C8: ParamsToLokiRequest produces the instant variant (carrying the
single timestamp, not a start/end range) exactly when the parameters
describe an instant evaluation, and otherwise produces the range
variant; reading the fields back from a produced range request recovers
start, end, step and interval in milliseconds, direction, limit and the
shard set's encoding exactly. -/
theorem ParamsToLokiRequest_roundtrip (params : Params) (shards : List Shard) :
    ((∃ r, ParamsToLokiRequest params shards = .instant r) ↔ params.instant = true)
  ∧ (params.instant = true →
      ∃ r, ParamsToLokiRequest params shards = .instant r
        ∧ r.timeTs = params.start
        ∧ r.query = params.query
        ∧ r.limit = params.limit
        ∧ r.direction = params.direction
        ∧ r.shards = shardsEncode shards)
  ∧ (params.instant = false →
      ∃ r, ParamsToLokiRequest params shards = .range r
        ∧ r.startTs = params.start
        ∧ r.endTs = params.endTime
        ∧ r.step = durationMilliseconds params.step
        ∧ r.interval = durationMilliseconds params.interval
        ∧ r.direction = params.direction
        ∧ r.limit = params.limit
        ∧ r.query = params.query
        ∧ r.shards = shardsEncode shards) := by
  by_cases hinst : params.instant = true
  · have heq : ParamsToLokiRequest params shards = .instant
        { query := params.query, limit := params.limit, timeTs := params.start,
          direction := params.direction, path := "/loki/api/v1/query",
          shards := shardsEncode shards } := by
      simp [ParamsToLokiRequest, hinst]
    exact ⟨⟨fun _ => hinst, fun _ => ⟨_, heq⟩⟩,
      fun _ => ⟨_, heq, rfl, rfl, rfl, rfl, rfl⟩,
      fun hfalse => absurd hinst (by simp [hfalse])⟩
  · have hfalse : params.instant = false := by simpa using hinst
    have heq : ParamsToLokiRequest params shards = .range
        { query := params.query, limit := params.limit,
          step := durationMilliseconds params.step,
          interval := durationMilliseconds params.interval,
          startTs := params.start, endTs := params.endTime,
          direction := params.direction, path := "/loki/api/v1/query_range",
          shards := shardsEncode shards } := by
      simp [ParamsToLokiRequest, hfalse]
    refine ⟨⟨?_, fun htrue => by simp [htrue] at hfalse⟩,
      fun htrue => by simp [htrue] at hfalse,
      fun _ => ⟨_, heq, rfl, rfl, rfl, rfl, rfl, rfl, rfl, rfl⟩⟩
    rintro ⟨r, hr⟩
    rw [heq] at hr
    exact absurd hr (by simp)

/-- Witness for C8 at a concrete range-query parameter set. -/
theorem ParamsToLokiRequest_roundtrip_witness :
    ∃ r, ParamsToLokiRequest
        { query := "rate", start := 3, endTime := 9, step := 5000000,
          interval := 7000000, direction := .backward, limit := 42, instant := false }
        [⟨"1_of_2"⟩] = .range r
      ∧ r.startTs = 3 ∧ r.endTs = 9 ∧ r.step = 5 ∧ r.interval = 7
      ∧ r.direction = .backward ∧ r.limit = 42 ∧ r.query = "rate"
      ∧ r.shards = ["1_of_2"] := by
  have h := (ParamsToLokiRequest_roundtrip
    { query := "rate", start := 3, endTime := 9, step := 5000000,
      interval := 7000000, direction := .backward, limit := 42, instant := false }
    [⟨"1_of_2"⟩]).2.2 rfl
  obtain ⟨r, hr, h1, h2, h3, h4, h5, h6, h7, h8⟩ := h
  exact ⟨r, hr, h1, h2, by simpa using h3, by simpa using h4, h5, h6, h7, by simpa [shardsEncode] using h8⟩

/-- C5: the Downstreamer factory resolves the concurrency bound to the
default 128 unless the tenant resolves without error and the limits
provider returns a strictly positive value, in which case the bound is
that value; and the returned instance's token pool has capacity equal to
the bound and is pre-filled with exactly that many tokens. -/
theorem Downstreamer_bound {A : Type} (h : DownstreamHandler A) (t : Except String String) :
    (∀ e, t = .error e →
      (h.Downstreamer t).parallelism = DefaultDownstreamConcurrency)
  ∧ (∀ u, t = .ok u → h.maxQueryParallelism u ≤ 0 →
      (h.Downstreamer t).parallelism = DefaultDownstreamConcurrency)
  ∧ (∀ u, t = .ok u → 0 < h.maxQueryParallelism u →
      (h.Downstreamer t).parallelism = h.maxQueryParallelism u)
  ∧ (h.Downstreamer t).locksCapacity = (h.Downstreamer t).parallelism
  ∧ (h.Downstreamer t).locks.length = (h.Downstreamer t).parallelism.toNat := by
  refine ⟨?_, ?_, ?_, ?_, ?_⟩
  · rintro e rfl
    simp [DownstreamHandler.Downstreamer]
  · rintro u rfl hle
    simp [DownstreamHandler.Downstreamer]
    omega
  · rintro u rfl hpos
    simp [DownstreamHandler.Downstreamer]
    omega
  · cases t <;> simp [DownstreamHandler.Downstreamer]
  · cases t <;> simp [DownstreamHandler.Downstreamer]

/-- Witness for C5: a limits provider answering 7 for the resolved
tenant yields bound 7 with a full pool of 7 tokens, and a failed tenant
resolution yields the default 128. -/
theorem Downstreamer_bound_witness :
    (DownstreamHandler.Downstreamer ⟨fun _ => 7, ()⟩ (.ok "tenant1")).parallelism = 7
  ∧ (DownstreamHandler.Downstreamer ⟨fun _ => 7, ()⟩ (.ok "tenant1")).locks.length = 7
  ∧ (DownstreamHandler.Downstreamer ⟨fun _ => -3, ()⟩ (.ok "tenant1")).parallelism = 128
  ∧ (DownstreamHandler.Downstreamer ⟨fun _ => 7, ()⟩ (.error "no org id")).parallelism = 128 := by
  have h1 := (Downstreamer_bound ⟨fun _ => 7, ()⟩ (.ok "tenant1")).2.2.1 "tenant1" rfl (by decide)
  have h2 := (Downstreamer_bound ⟨fun _ => 7, ()⟩ (.ok "tenant1")).2.2.2.2
  have h3 := (Downstreamer_bound ⟨fun _ => -3, ()⟩ (.ok "tenant1")).2.1 "tenant1" rfl (by decide)
  have h4 := (Downstreamer_bound ⟨fun _ => 7, ()⟩ (.error "no org id")).1 "no org id" rfl
  refine ⟨h1, ?_, by simpa [DefaultDownstreamConcurrency] using h3,
    by simpa [DefaultDownstreamConcurrency] using h4⟩
  rw [h2, h1]
  decide

/-- Helper: reading an updated position. -/
theorem getD_set_self {α : Type} (l : List α) (i : Nat) (a d : α) (h : i < l.length) :
    (l.set i a).getD i d = a := by
  simp [List.getD_eq_getElem?_getD, List.getElem?_set_self, h]

/-- Helper: reading a position other than the updated one. -/
theorem getD_set_ne {α : Type} (l : List α) (i j : Nat) (a d : α) (hne : i ≠ j) :
    (l.set i a).getD j d = l.getD j d := by
  simp [List.getD_eq_getElem?_getD, List.getElem?_set_ne hne]

/-- Helper: an in-bounds getD is a member. -/
theorem getD_mem {α : Type} (l : List α) (i : Nat) (d : α) (h : i < l.length) :
    l.getD i d ∈ l := by
  rw [List.getD_eq_getElem?_getD, List.getElem?_eq_getElem h]
  exact List.getElem_mem h

/-- Helper: one step of the collector loop. -/
theorem forCollect_cons {Q R E : Type} [Inhabited Q] (queries : List Q)
    (fn : Q → Except E R) (j : Nat) (rest : List Nat) (acc : List R) :
    forCollect queries fn (j :: rest) acc =
      match fn (queries.getD j default) with
      | .error e => .error e
      | .ok r => forCollect queries fn rest (acc.set j r) := rfl

/-- Helper: the collector loop, processing a delivery order along which
every index is in bounds and every work result is a success, succeeds,
fills exactly the delivered positions with their work results and leaves
the other positions unchanged. -/
theorem forCollect_ok {Q R E : Type} [Inhabited Q] [Inhabited R]
    (queries : List Q) (fn : Q → Except E R) :
    ∀ (order : List Nat) (acc : List R),
      (∀ j ∈ order, j < acc.length) →
      (∀ j ∈ order, ∃ r, fn (queries.getD j default) = .ok r) →
      ∃ res, forCollect queries fn order acc = .ok res
        ∧ res.length = acc.length
        ∧ (∀ i, i ∈ order → fn (queries.getD i default) = .ok (res.getD i default))
        ∧ (∀ i, i ∉ order → res.getD i default = acc.getD i default)
  | [], acc, _, _ => ⟨acc, rfl, rfl, by simp, fun _ _ => rfl⟩
  | j :: rest, acc, hbound, hok => by
    obtain ⟨r, hr⟩ := hok j (List.mem_cons_self j rest)
    have hjlt : j < acc.length := hbound j (List.mem_cons_self j rest)
    obtain ⟨res, hres, hlen, hin, hout⟩ :=
      forCollect_ok queries fn rest (acc.set j r)
        (fun k hk => by rw [List.length_set]; exact hbound k (List.mem_cons_of_mem j hk))
        (fun k hk => hok k (List.mem_cons_of_mem j hk))
    refine ⟨res, by rw [forCollect_cons, hr]; exact hres, by rw [hlen, List.length_set], ?_, ?_⟩
    · intro i hi
      rcases List.mem_cons.1 hi with rfl | hmem
      · by_cases hir : i ∈ rest
        · exact hin i hir
        · rw [hout i hir, getD_set_self acc i r default hjlt]
          exact hr
      · exact hin i hmem
    · intro i hi
      have hij : j ≠ i := fun heq => hi (heq ▸ List.mem_cons_self j rest)
      rw [hout i (fun hmem => hi (List.mem_cons_of_mem j hmem)),
        getD_set_ne acc j i r default hij]

/-- Helper: the collector returns a result list only when the work
succeeded at every delivered index. -/
theorem forCollect_ok_all {Q R E : Type} [Inhabited Q]
    (queries : List Q) (fn : Q → Except E R) :
    ∀ (order : List Nat) (acc results : List R),
      forCollect queries fn order acc = .ok results →
      ∀ j ∈ order, ∃ r, fn (queries.getD j default) = .ok r
  | [], _, _, _ => by simp
  | j :: rest, acc, results, h => by
    intro k hk
    rw [forCollect] at h
    cases hfn : fn (queries.getD j default) with
    | error e => rw [hfn] at h; cases h
    | ok r =>
      rw [hfn] at h
      rcases List.mem_cons.1 hk with rfl | hmem
      · exact ⟨r, hfn⟩
      · exact forCollect_ok_all queries fn rest (acc.set j r) results h k hmem

/-- Helper: the collector aborts with the error of the first failing
index in delivery order. -/
theorem forCollect_first_error {Q R E : Type} [Inhabited Q]
    (queries : List Q) (fn : Q → Except E R) (j : Nat) (e : E)
    (hj : fn (queries.getD j default) = .error e) :
    ∀ (pre post : List Nat) (acc : List R),
      (∀ k ∈ pre, ∃ r, fn (queries.getD k default) = .ok r) →
      forCollect queries fn (pre ++ j :: post) acc = .error e
  | [], post, acc, _ => by
    show forCollect queries fn (j :: post) acc = .error e
    rw [forCollect_cons, hj]
  | k :: pre, post, acc, hpre => by
    obtain ⟨r, hr⟩ := hpre k (List.mem_cons_self k pre)
    have ih := forCollect_first_error queries fn j e hj pre post (acc.set k r)
      (fun m hm => hpre m (List.mem_cons_of_mem k hm))
    show forCollect queries fn (k :: (pre ++ j :: post)) acc = .error e
    rw [forCollect_cons, hr]
    exact ih

/-- C1: if the work function succeeds on every sub-query, For returns a
result list of exactly n entries in which entry i is the result the work
function produced for queries[i], for every delivery order of the
concurrent workers (any permutation of the index range). -/
theorem For_order_preservation {Q R E : Type} [Inhabited Q] [Inhabited R]
    (queries : List Q) (fn : Q → Except E R) (order : List Nat)
    (hperm : order.Perm (List.range queries.length))
    (hok : ∀ q ∈ queries, ∃ r, fn q = .ok r) :
    ∃ results, For queries fn order = .ok results
      ∧ results.length = queries.length
      ∧ ∀ i, i < queries.length →
          fn (queries.getD i default) = .ok (results.getD i default) := by
  have hbound : ∀ j ∈ order, j < queries.length := fun j hj =>
    List.mem_range.1 (hperm.mem_iff.1 hj)
  obtain ⟨res, hres, hlen, hin, _⟩ :=
    forCollect_ok queries fn order (List.replicate queries.length default)
      (by simpa using hbound)
      (fun j hj => hok _ (getD_mem queries j default (hbound j hj)))
  exact ⟨res, hres, by simpa using hlen,
    fun i hi => hin i (hperm.mem_iff.2 (List.mem_range.2 hi))⟩

/-- Witness for C1: two sub-queries delivered in reversed order still
land at their own indices. -/
theorem For_order_preservation_witness :
    ∃ results, For [10, 20] (fun q => (Except.ok (q + 1) : Except String Nat)) [1, 0]
        = .ok results
      ∧ results.length = 2
      ∧ ∀ i, i < 2 →
          (fun q => (Except.ok (q + 1) : Except String Nat)) ([10, 20].getD i default)
            = .ok (results.getD i default) := by
  have h := For_order_preservation [10, 20]
    (fun q => (Except.ok (q + 1) : Except String Nat)) [1, 0]
    (by decide) (fun q _ => ⟨q + 1, rfl⟩)
  simpa using h

/-- C2: if the work function fails at some sub-query, For returns the
error of the first failing result in delivery order, together with no
result list, and no run of For whose delivery order contains a failing
index can ever return a result list. -/
theorem For_fail_fast {Q R E : Type} [Inhabited Q] [Inhabited R]
    (queries : List Q) (fn : Q → Except E R) (pre post : List Nat) (j : Nat) (e : E)
    (hpre : ∀ k ∈ pre, ∃ r, fn (queries.getD k default) = .ok r)
    (hj : fn (queries.getD j default) = .error e) :
    For queries fn (pre ++ j :: post) = .error e
  ∧ (∀ results, For queries fn (pre ++ j :: post) ≠ .ok results)
  ∧ (∀ (order : List Nat) (results : List R), For queries fn order = .ok results →
      ∀ k ∈ order, ∃ r, fn (queries.getD k default) = .ok r) := by
  have h1 : For queries fn (pre ++ j :: post) = .error e :=
    forCollect_first_error queries fn j e hj pre post _ hpre
  refine ⟨h1, ?_, ?_⟩
  · intro results hok
    rw [h1] at hok
    cases hok
  · intro order results hok k hk
    exact forCollect_ok_all queries fn order _ results hok k hk

/-- Witness for C2: with the second sub-query failing and delivered
after the first, For aborts with its error. -/
theorem For_fail_fast_witness :
    For [10, 20] (fun q => if q = 20 then (.error "boom" : Except String Nat) else .ok q)
      [0, 1] = .error "boom" := by
  have h := For_fail_fast [10, 20]
    (fun q => if q = 20 then (.error "boom" : Except String Nat) else .ok q)
    [0] [] 1 "boom"
    (fun k hk => by
      have : k = 0 := by simpa using hk
      subst this
      exact ⟨10, rfl⟩)
    rfl
  exact h.1

/-- Helper: invariant of the For transition system — tokens in the pool
plus tokens held by running workers always total the instance
parallelism (every acquired token is released exactly once, lines
134-136). -/
theorem ForStep_token {n p : Nat} {s t : DState} (hstep : ForStep n s t)
    (h : s.avail + s.running = p) : t.avail + t.running = p := by
  cases hstep with
  | spawn h1 h2 => show s.avail - 1 + (s.running + 1) = p; omega
  | skipIdx h1 h2 => exact h
  | finish h1 => show s.avail + 1 + (s.running - 1) = p; omega
  | cancel => exact h

theorem ForReach_token_conservation {n p : Nat} {s : DState} (h : ForReach n p s) :
    s.avail + s.running = p := by
  induction h with
  | refl => rfl
  | tail _hreach hstep ih => exact ForStep_token hstep ih

/-- C4: at every moment during a call to For on an instance with
parallelism p, at most p workers hold a token, hence at most p
invocations of the work function execute simultaneously, for every
number of queries n and every reachable state. -/
theorem For_concurrency_bound (n p : Nat) (s : DState) (h : ForReach n p s) :
    s.running ≤ p := by
  have := ForReach_token_conservation h
  omega

/-- Witness for C4: the state after dispatching the first of three
sub-queries on an instance with parallelism 2 runs at most 2 workers. -/
theorem For_concurrency_bound_witness :
    (⟨1, 1, 1, false⟩ : DState).running ≤ 2 :=
  For_concurrency_bound 3 2 ⟨1, 1, 1, false⟩
    (Relation.ReflTransGen.single (ForStep.spawn (initState 2) (by decide) (by decide)))

/-- Helper: with zero queries no step can start a worker or take a
token. -/
theorem ForStep_zero {p : Nat} {s t : DState} (hstep : ForStep 0 s t)
    (h : s.avail = p ∧ s.running = 0) : t.avail = p ∧ t.running = 0 := by
  cases hstep with
  | spawn h1 h2 => exact absurd h1 (Nat.not_lt_zero _)
  | skipIdx h1 h2 => exact absurd h1 (Nat.not_lt_zero _)
  | finish h1 =>
    show s.avail + 1 = p ∧ s.running - 1 = 0
    omega
  | cancel => exact h

/-- C9: calling For with an empty list of sub-queries returns an empty,
non-error result list, and in every state reachable with zero queries
the token pool is still full and no worker was ever started: no token is
ever acquired during the call. -/
theorem For_empty {Q R E : Type} [Inhabited Q] [Inhabited R] (fn : Q → Except E R)
    (p : Nat) (s : DState) (h : ForReach 0 p s) :
    For ([] : List Q) fn [] = .ok []
  ∧ s.avail = p ∧ s.running = 0 := by
  refine ⟨rfl, ?_⟩
  induction h with
  | refl => exact ⟨rfl, rfl⟩
  | tail _hreach hstep ih => exact ForStep_zero hstep ih

/-- Witness for C9 in the initial state of an instance with
parallelism 4. -/
theorem For_empty_witness :
    For ([] : List Nat) (fun q => (Except.ok q : Except String Nat)) [] = .ok []
  ∧ (initState 4).avail = 4 ∧ (initState 4).running = 0 :=
  For_empty (fun q => (Except.ok q : Except String Nat)) 4 (initState 4)
    Relation.ReflTransGen.refl

/-- C3 (refuting run): with 2 queries on an instance with parallelism 1,
the state next = 1, one token in the pool, context cancelled, is
reachable (dispatch query 0, let its worker finish, then cancel), and
from it the supervisor can still take the token branch of its select and
spawn a worker for query 1: the break at line 130 exits only the select,
not the dispatch loop, so a token acquisition after cancellation is a
possible execution, contradicting the claim that the supervisor performs
no further acquisitions once the scope is cancelled. -/
theorem For_spawn_after_cancel :
    ∃ s t : DState, ForReach 2 1 s ∧ s.cancelled = true
      ∧ ForStep 2 s t ∧ t.running = s.running + 1 ∧ t.avail + 1 = s.avail := by
  refine ⟨⟨1, 1, 0, true⟩, ⟨2, 0, 1, true⟩, ?_, rfl, ?_, rfl, rfl⟩
  · exact Relation.ReflTransGen.tail
      (Relation.ReflTransGen.tail
        (Relation.ReflTransGen.single (ForStep.spawn (initState 1) (by decide) (by decide)))
        (ForStep.finish ⟨1, 0, 1, false⟩ (by decide)))
      (ForStep.cancel ⟨1, 1, 0, false⟩)
  · exact ForStep.spawn ⟨1, 1, 0, true⟩ (by decide) (by decide)

/-- Helper: one step of sampleStreamToVector. -/
theorem sampleStreamToVector_cons {V : Type} (stream : SampleStream V)
    (rest : List (SampleStream V)) :
    sampleStreamToVector (stream :: rest) =
      match stream.samples with
      | [] => none
      | s0 :: _ =>
        match sampleStreamToVector rest with
        | none => none
        | some xs =>
          some ({ metric := stream.labels.map labelCast
                  point := { t := s0.timestampMs, v := s0.value } } :: xs) := rfl

/-- Helper: sampleStreamToVector panics exactly when some stream has no
samples. -/
theorem sampleStreamToVector_eq_none {V : Type} :
    ∀ streams : List (SampleStream V),
      (sampleStreamToVector streams = none ↔ ∃ s ∈ streams, s.samples = [])
  | [] => by simp [sampleStreamToVector]
  | stream :: rest => by
    rw [sampleStreamToVector_cons]
    cases hs : stream.samples with
    | nil =>
      refine ⟨fun _ => ⟨stream, List.mem_cons_self _ _, hs⟩, fun _ => rfl⟩
    | cons s0 tl =>
      cases hrest : sampleStreamToVector rest with
      | none =>
        obtain ⟨s, hmem, hse⟩ := (sampleStreamToVector_eq_none rest).1 hrest
        exact ⟨fun _ => ⟨s, List.mem_cons_of_mem _ hmem, hse⟩, fun _ => rfl⟩
      | some xs =>
        refine ⟨fun h => Option.noConfusion h, ?_⟩
        rintro ⟨s, hmem, hse⟩
        rcases List.mem_cons.1 hmem with rfl | hmem2
        · rw [hs] at hse
          cases hse
        · have hn := (sampleStreamToVector_eq_none rest).2 ⟨s, hmem2, hse⟩
          rw [hn] at hrest
          cases hrest

/-- Helper: on all-nonempty streams sampleStreamToVector succeeds with
one entry per stream in order, each carrying the stream labels and the
first sample. -/
theorem sampleStreamToVector_eq_some {V : Type} :
    ∀ streams : List (SampleStream V),
      (∀ s ∈ streams, s.samples ≠ []) →
      ∃ v, sampleStreamToVector streams = some v
        ∧ v.length = streams.length
        ∧ ∀ (i : Nat) (s : SampleStream V), streams[i]? = some s →
            ∃ s0 tl, s.samples = s0 :: tl
              ∧ v[i]? = some { metric := s.labels.map labelCast
                               point := { t := s0.timestampMs, v := s0.value } }
  | [], _ => ⟨[], rfl, rfl, by simp⟩
  | stream :: rest, hne => by
    obtain ⟨s0, tl, hs⟩ : ∃ s0 tl, stream.samples = s0 :: tl := by
      cases hsam : stream.samples with
      | nil => exact absurd hsam (hne stream (List.mem_cons_self _ _))
      | cons a b => exact ⟨a, b, rfl⟩
    obtain ⟨v, hv, hlen, hidx⟩ := sampleStreamToVector_eq_some rest
      (fun s hsm => hne s (List.mem_cons_of_mem _ hsm))
    refine ⟨{ metric := stream.labels.map labelCast
              point := { t := s0.timestampMs, v := s0.value } } :: v,
      by rw [sampleStreamToVector_cons, hs, hv], by simp [hlen], ?_⟩
    intro i s hsi
    cases i with
    | zero =>
      have hss : stream = s := by simpa using hsi
      subst hss
      exact ⟨s0, tl, hs, by simp⟩
    | succ m =>
      have hsi2 : rest[m]? = some s := by simpa using hsi
      obtain ⟨a, b, hab, hvm⟩ := hidx m s hsi2
      exact ⟨a, b, hab, by simpa using hvm⟩

/-- C10: for an error-free vector-shaped sample-stream response,
ResponseToResult reads each stream's first sample without checking that
the stream has any: it panics with an out-of-bounds access (the value
none) exactly when some stream carries no samples — rather than
returning an error — and the translation is total precisely under the
precondition that every stream carries at least one sample. -/
theorem ResponseToResult_vector_panic {S H T V : Type} (r : LokiPromResponse S H V)
    (herr : r.response.error = "")
    (hvec : r.response.data.resultType = ResultTypeVector) :
    (ResponseToResult (T := T) (.lokiPromResponse r) = none
      ↔ ∃ s ∈ r.response.data.result, s.samples = [])
  ∧ ((∀ s ∈ r.response.data.result, s.samples ≠ []) →
      ∃ res, ResponseToResult (T := T) (.lokiPromResponse r) = some (.ok res))
  ∧ (∀ e, ResponseToResult (T := T) (.lokiPromResponse r) ≠ some (.error e)) := by
  have hred : ResponseToResult (T := T) (.lokiPromResponse r) =
      match sampleStreamToVector r.response.data.result with
      | none => none
      | some v => some (.ok { statistics := r.statistics
                              data := .vector v
                              headers := r.headers }) := by
    simp [ResponseToResult, herr, hvec]
  refine ⟨?_, ?_, ?_⟩
  · rw [hred]
    cases hsv : sampleStreamToVector r.response.data.result with
    | none =>
      exact ⟨fun _ => (sampleStreamToVector_eq_none _).1 hsv, fun _ => rfl⟩
    | some v =>
      refine ⟨fun h => Option.noConfusion h, ?_⟩
      intro hex
      rw [(sampleStreamToVector_eq_none _).2 hex] at hsv
      cases hsv
  · intro hne
    obtain ⟨v, hv, _, _⟩ := sampleStreamToVector_eq_some _ hne
    rw [hred, hv]
    exact ⟨_, rfl⟩
  · intro e
    rw [hred]
    cases hsv : sampleStreamToVector r.response.data.result with
    | none => exact fun h => Option.noConfusion h
    | some v => exact fun h => by simp at h

/-- Witness for C10: a vector-shaped response whose only stream carries
no samples panics (none) instead of returning an error or a Result. -/
theorem ResponseToResult_vector_panic_witness :
    ResponseToResult (Response.lokiPromResponse (S := Unit) (H := Unit) (T := Unit) (V := Unit)
      { response := { errorType := "", error := "",
                      data := { resultType := "vector",
                                result := [{ labels := [], samples := [] }] } },
        statistics := (), headers := () }) = none := by
  have h := (ResponseToResult_vector_panic (S := Unit) (H := Unit) (T := Unit) (V := Unit)
    { response := { errorType := "", error := "",
                    data := { resultType := "vector",
                              result := [{ labels := [], samples := [] }] } },
      statistics := (), headers := () } rfl rfl).1
  exact h.2 ⟨{ labels := [], samples := [] }, by simp, rfl⟩

/-- Counterexample to C6: an error-free, recognized (vector-shaped)
sample-stream response containing a zero-sample stream does not return a
successful Result — the translation panics on the unchecked Samples[0]
access (value none, neither a returned error nor a Result), refuting the
otherwise-successful clause of the claim. -/
theorem ResponseToResult_not_total :
    ResponseToResult (Response.lokiPromResponse (S := Unit) (H := Unit) (T := Unit) (V := Unit)
      { response := { errorType := "", error := "",
                      data := { resultType := "vector",
                                result := [{ labels := [⟨"job", "a"⟩], samples := [] }] } },
        statistics := (), headers := () }) = none := rfl

/-- C6 (amended): ResponseToResult fails exactly when the response is an
unrecognized variant or carries a non-empty error message — with the
error string equal to ErrorType: ErrorMessage for the two recognized
variants and a cannot-decode error naming the unexpected shape otherwise
— and in the remaining cases it returns a successful Result, provided
that in an error-free vector-shaped sample-stream response every stream
carries at least one sample (without that proviso the translation panics
instead, see ResponseToResult_not_total). -/
theorem ResponseToResult_error_contract {S H T V : Type}
    (r1 : LokiResponse S H T) (r2 : LokiPromResponse S H V) (typeName : String) :
    (r1.error ≠ "" →
      ResponseToResult (V := V) (.lokiResponse r1)
        = some (.error (r1.errorType ++ ": " ++ r1.error)))
  ∧ (r1.error = "" →
      ResponseToResult (V := V) (.lokiResponse r1)
        = some (.ok { statistics := r1.statistics
                      data := .streams r1.result
                      headers := r1.headers }))
  ∧ (r2.response.error ≠ "" →
      ResponseToResult (T := T) (.lokiPromResponse r2)
        = some (.error (r2.response.errorType ++ ": " ++ r2.response.error)))
  ∧ (r2.response.error = "" →
      (r2.response.data.resultType = ResultTypeVector →
        ∀ s ∈ r2.response.data.result, s.samples ≠ []) →
      ∃ res, ResponseToResult (T := T) (.lokiPromResponse r2) = some (.ok res))
  ∧ ResponseToResult (S := S) (H := H) (T := T) (V := V) (.unknown typeName)
      = some (.error ("cannot decode (" ++ typeName ++ ")")) := by
  refine ⟨?_, ?_, ?_, ?_, rfl⟩
  · intro hne
    simp [ResponseToResult, hne]
  · intro heq
    simp [ResponseToResult, heq]
  · intro hne
    simp [ResponseToResult, hne]
  · intro heq hnonempty
    by_cases hvec : r2.response.data.resultType = ResultTypeVector
    · obtain ⟨v, hv, _, _⟩ := sampleStreamToVector_eq_some _ (hnonempty hvec)
      refine ⟨{ statistics := r2.statistics, data := .vector v, headers := r2.headers }, ?_⟩
      simp only [ResponseToResult]
      rw [if_neg (by simp [heq]), if_pos hvec, hv]
    · refine ⟨{ statistics := r2.statistics
                data := .matrix (sampleStreamToMatrix r2.response.data.result)
                headers := r2.headers }, ?_⟩
      simp only [ResponseToResult]
      rw [if_neg (by simp [heq]), if_neg hvec]

/-- Witness for C6 at concrete inputs: a sample-stream response carrying
error type too_many_requests and message limit exceeded fails with
exactly that string; an error-free matrix-shaped response succeeds; an
unrecognized shape fails with the cannot-decode error naming it. -/
theorem ResponseToResult_error_contract_witness :
    ResponseToResult (Response.lokiPromResponse (S := Unit) (H := Unit) (T := Unit) (V := Int)
      { response := { errorType := "too_many_requests", error := "limit exceeded",
                      data := { resultType := "matrix", result := [] } },
        statistics := (), headers := () })
      = some (.error "too_many_requests: limit exceeded")
  ∧ (∃ res, ResponseToResult (Response.lokiPromResponse (S := Unit) (H := Unit) (T := Unit) (V := Int)
      { response := { errorType := "", error := "",
                      data := { resultType := "matrix",
                                result := [{ labels := [], samples := [⟨100, 5⟩] }] } },
        statistics := (), headers := () }) = some (.ok res))
  ∧ ResponseToResult (S := Unit) (H := Unit) (T := Unit) (V := Int)
      (.unknown "*queryrange.LokiSeriesResponse")
      = some (.error "cannot decode (*queryrange.LokiSeriesResponse)") := by
  refine ⟨?_, ?_, ?_⟩
  · have h := (ResponseToResult_error_contract (S := Unit) (H := Unit) (V := Int)
      { errorType := "", error := "", result := ([] : List Unit), statistics := (), headers := () }
      { response := { errorType := "too_many_requests", error := "limit exceeded",
                      data := { resultType := "matrix", result := [] } },
        statistics := (), headers := () } "x").2.2.1 (by decide)
    simpa using h
  · exact (ResponseToResult_error_contract (S := Unit) (H := Unit) (V := Int)
      { errorType := "", error := "", result := ([] : List Unit), statistics := (), headers := () }
      { response := { errorType := "", error := "",
                      data := { resultType := "matrix",
                                result := [{ labels := [], samples := [⟨100, 5⟩] }] } },
        statistics := (), headers := () } "x").2.2.2.1 rfl
      (fun hvec => absurd hvec (by decide))
  · exact (ResponseToResult_error_contract (S := Unit) (H := Unit) (V := Int)
      { errorType := "", error := "", result := ([] : List Unit), statistics := (), headers := () }
      { response := { errorType := "", error := "",
                      data := { resultType := "matrix", result := [] } },
        statistics := (), headers := () }
      "*queryrange.LokiSeriesResponse").2.2.2.2

/-- C7: for an error-free sample-stream response, a vector-typed
declared result translates to one vector entry per stream, each carrying
the stream's label set and its first sample point, preserving stream
order; any other declared result type translates to a matrix with one
series per stream carrying the full label set and the complete ordered
sequence of (timestamp, value) points taken verbatim from the stream's
samples, preserving stream order and within-stream sample order. -/
theorem ResponseToResult_shapes {S H T V : Type} (r : LokiPromResponse S H V)
    (herr : r.response.error = "") :
    (r.response.data.resultType = ResultTypeVector →
      (∀ s ∈ r.response.data.result, s.samples ≠ []) →
      ∃ v, ResponseToResult (T := T) (.lokiPromResponse r)
          = some (.ok { statistics := r.statistics
                        data := .vector v
                        headers := r.headers })
        ∧ v.length = r.response.data.result.length
        ∧ ∀ (i : Nat) (s : SampleStream V), r.response.data.result[i]? = some s →
            ∃ s0 tl, s.samples = s0 :: tl
              ∧ v[i]? = some { metric := s.labels.map labelCast
                               point := { t := s0.timestampMs, v := s0.value } })
  ∧ (r.response.data.resultType ≠ ResultTypeVector →
      ∃ m, ResponseToResult (T := T) (.lokiPromResponse r)
          = some (.ok { statistics := r.statistics
                        data := .matrix m
                        headers := r.headers })
        ∧ m.length = r.response.data.result.length
        ∧ ∀ i : Nat, m[i]? = (r.response.data.result[i]?).map fun s =>
            { metric := s.labels.map labelCast
              points := s.samples.map fun smp =>
                { t := smp.timestampMs, v := smp.value } }) := by
  constructor
  · intro hvec hne
    obtain ⟨v, hv, hlen, hidx⟩ := sampleStreamToVector_eq_some _ hne
    refine ⟨v, ?_, hlen, hidx⟩
    simp only [ResponseToResult]
    rw [if_neg (by simp [herr]), if_pos hvec, hv]
  · intro hvec
    refine ⟨sampleStreamToMatrix r.response.data.result, ?_, by
        simp [sampleStreamToMatrix], ?_⟩
    · simp only [ResponseToResult]
      rw [if_neg (by simp [herr]), if_neg hvec]
    · intro i
      simp [sampleStreamToMatrix, List.getElem?_map]

/-- Witness for C7 at the spec's example shape: three streams, one
sample each, as vector and as matrix. -/
theorem ResponseToResult_shapes_witness :
    (∃ v, ResponseToResult (Response.lokiPromResponse (S := Unit) (H := Unit) (T := Unit) (V := Int)
        { response := { errorType := "", error := "",
                        data := { resultType := "vector",
                                  result := [{ labels := [⟨"job", "a"⟩], samples := [⟨100, 1⟩] },
                                             { labels := [⟨"job", "b"⟩], samples := [⟨100, 2⟩] },
                                             { labels := [⟨"job", "c"⟩], samples := [⟨100, 3⟩] }] } },
          statistics := (), headers := () })
        = some (.ok { statistics := (), data := .vector v, headers := () })
      ∧ v.length = 3)
  ∧ (∃ m, ResponseToResult (Response.lokiPromResponse (S := Unit) (H := Unit) (T := Unit) (V := Int)
        { response := { errorType := "", error := "",
                        data := { resultType := "matrix",
                                  result := [{ labels := [⟨"job", "a"⟩], samples := [⟨100, 1⟩] },
                                             { labels := [⟨"job", "b"⟩], samples := [⟨100, 2⟩] },
                                             { labels := [⟨"job", "c"⟩], samples := [⟨100, 3⟩] }] } },
          statistics := (), headers := () })
        = some (.ok { statistics := (), data := .matrix m, headers := () })
      ∧ m.length = 3) := by
  constructor
  · obtain ⟨v, hv, hlen, _⟩ := (ResponseToResult_shapes (S := Unit) (H := Unit) (T := Unit) (V := Int)
      { response := { errorType := "", error := "",
                      data := { resultType := "vector",
                                result := [{ labels := [⟨"job", "a"⟩], samples := [⟨100, 1⟩] },
                                           { labels := [⟨"job", "b"⟩], samples := [⟨100, 2⟩] },
                                           { labels := [⟨"job", "c"⟩], samples := [⟨100, 3⟩] }] } },
        statistics := (), headers := () } rfl).1 rfl
      (by intro s hs; simp at hs; rcases hs with rfl | rfl | rfl <;> simp)
    exact ⟨v, hv, by simpa using hlen⟩
  · obtain ⟨m, hm, hlen, _⟩ := (ResponseToResult_shapes (S := Unit) (H := Unit) (T := Unit) (V := Int)
      { response := { errorType := "", error := "",
                      data := { resultType := "matrix",
                                result := [{ labels := [⟨"job", "a"⟩], samples := [⟨100, 1⟩] },
                                           { labels := [⟨"job", "b"⟩], samples := [⟨100, 2⟩] },
                                           { labels := [⟨"job", "c"⟩], samples := [⟨100, 3⟩] }] } },
        statistics := (), headers := () } rfl).2 (by decide)
    exact ⟨m, hm, by simpa using hlen⟩
